import Mathlib

/-!
A verification development for the `xplane_airports` apt.dat parser
(`src/xplane_airports/AptDat.py`).  The Python source is shallowly embedded:
each Python function or property becomes a Lean definition carrying the same
name where possible, fallible Python code (assertions, `IndexError`,
`ValueError`) is modelled with `Option`, and Python `float` values are
modelled as exact rationals (the source only parses decimal literals and
averages pairs of them).  Python string primitives (`str.strip`,
`str.split(' ')`, `str.splitlines`, `int(...)`, `float(...)`, `in`) are
modelled by executable helpers on `List Char`; the models cover the ASCII
whitespace set and plain sign/digit/point/exponent numerals, which is the
fragment the apt.dat format and all inputs considered here use
(Python's underscore digit grouping, Unicode digits and `inf`/`nan`
spellings are outside the modelled fragment).
-/

namespace XPlaneAirports

/-- The whitespace characters stripped by Python `str.strip()` (ASCII set). -/
def isPySpace (c : Char) : Bool :=
  c = ' ' || c = '\t' || c = '\n' || c = '\r' || c = '\x0b' || c = '\x0c'

/-- Python `s.strip()` on the character list of a string. -/
def pyStripList (cs : List Char) : List Char :=
  ((cs.dropWhile isPySpace).reverse.dropWhile isPySpace).reverse

/-- Python `s.strip()`. -/
def pyStrip (s : String) : String :=
  String.mk (pyStripList s.data)

/-- Helper for `splitChar`: Python `str.split(sep)` with a one-character
separator, keeping empty pieces, accumulator holds the reversed current
piece. -/
def splitCharAux (sep : Char) : List Char → List Char → List String
  | [], acc => [String.mk acc.reverse]
  | c :: r, acc =>
      if c = sep then String.mk acc.reverse :: splitCharAux sep r []
      else splitCharAux sep r (c :: acc)

/-- Python `s.split(sep)` for a single-character separator: splits at every
occurrence, keeping empty pieces (so `"".split(' ') = [""]`). -/
def splitChar (sep : Char) (s : String) : List String :=
  splitCharAux sep s.data []

/-- Helper for `collapseSpaces` (Python `re.sub(' +', ' ', s)`): the flag
records whether the previously emitted character was a space of a run being
collapsed. -/
def collapseSpacesAux : Bool → List Char → List Char
  | _, [] => []
  | lastSp, c :: r =>
      if c = ' ' then
        if lastSp then collapseSpacesAux true r
        else ' ' :: collapseSpacesAux true r
      else c :: collapseSpacesAux false r

/-- Python `re.sub(' +', ' ', s)`: every run of space characters becomes a
single space. -/
def collapseSpaces (s : String) : String :=
  String.mk (collapseSpacesAux false s.data)

/-- Numeric value of a digit list (most significant first). -/
def digitsVal (cs : List Char) : Nat :=
  cs.foldl (fun a c => a * 10 + (c.toNat - 48)) 0

/-- Python `int(s)` on the modelled fragment: strip whitespace, optional
sign, then one or more ASCII digits and nothing else. -/
def pyInt (s : String) : Option Int :=
  let cs := pyStripList s.data
  let digitsOnly : List Char → Option Nat := fun r =>
    if r ≠ [] ∧ r.all Char.isDigit then some (digitsVal r) else none
  match cs with
  | '+' :: r => (digitsOnly r).map Int.ofNat
  | '-' :: r => (digitsOnly r).map (fun n => -(n : Int))
  | r => (digitsOnly r).map Int.ofNat

/-- Exponent suffix of a Python float literal: empty means exponent 0;
otherwise `e`/`E`, an optional sign and one or more digits. -/
def pyFloatExp : List Char → Option Int
  | [] => some 0
  | c :: r =>
      if c = 'e' ∨ c = 'E' then
        match r with
        | '+' :: d => if d ≠ [] ∧ d.all Char.isDigit then some (digitsVal d) else none
        | '-' :: d => if d ≠ [] ∧ d.all Char.isDigit then some (-(digitsVal d : Int)) else none
        | d => if d ≠ [] ∧ d.all Char.isDigit then some (digitsVal d) else none
      else none

/-- Python `float(s)` on the modelled fragment: strip whitespace, optional
sign, integer part and/or fractional part (at least one digit between them),
optional exponent.  The value is the exact rational value of the decimal
literal, assembled with integer arithmetic and a single `mkRat`. -/
def pyFloat (s : String) : Option ℚ :=
  let cs := pyStripList s.data
  let signAndRest : Int × List Char :=
    match cs with
    | '+' :: r => (1, r)
    | '-' :: r => (-1, r)
    | r => (1, r)
  let sgn := signAndRest.1
  let cs1 := signAndRest.2
  let ip := cs1.takeWhile Char.isDigit
  let rest1 := cs1.drop ip.length
  let fpAndRest : List Char × List Char :=
    match rest1 with
    | '.' :: r => (r.takeWhile Char.isDigit, r.drop (r.takeWhile Char.isDigit).length)
    | r => ([], r)
  let fp := fpAndRest.1
  let rest2 := fpAndRest.2
  if ip = [] ∧ fp = [] then none
  else
    match pyFloatExp rest2 with
    | none => none
    | some e =>
        let n : Int := sgn * ((digitsVal ip : Int) * (10 : Int) ^ fp.length + (digitsVal fp : Int))
        if 0 ≤ e then some (mkRat (n * (10 : Int) ^ e.toNat) ((10 : Nat) ^ fp.length))
        else some (mkRat n ((10 : Nat) ^ fp.length * (10 : Nat) ^ (-e).toNat))

/-- Python `needle in hay` for strings, as a scan over character lists. -/
def listContainsSub (needle : List Char) : List Char → Bool
  | [] => needle.isEmpty
  | c :: r => List.isPrefixOf needle (c :: r) || listContainsSub needle r

/-- Python `s.upper()` (ASCII fragment, via `Char.toUpper`). -/
def pyUpper (s : String) : String :=
  String.mk (s.data.map Char.toUpper)

/-- After a lone `\r`, a directly following `\n` belongs to the same
`\r\n` terminator and is consumed with it. -/
def dropLf (r : List Char) : List Char :=
  if r.head? = some '\n' then r.tail else r

theorem dropLf_length (r : List Char) : (dropLf r).length ≤ r.length := by
  unfold dropLf
  split
  · cases r <;> simp
  · simp

/-- Python `str.splitlines` on the modelled terminators `\n`, `\r\n`, `\r`:
the accumulator holds the reversed current line; a trailing partial line is
emitted only when non-empty progress into it has been made. -/
def pySplitlinesAux : List Char → List Char → List String
  | [], acc => if acc.isEmpty then [] else [String.mk acc.reverse]
  | c :: r, acc =>
      if c = '\n' then String.mk acc.reverse :: pySplitlinesAux r []
      else if c = '\r' then String.mk acc.reverse :: pySplitlinesAux (dropLf r) []
      else pySplitlinesAux r (c :: acc)
termination_by cs _ => cs.length
decreasing_by
  · simp
  · have := dropLf_length r
    simp
    omega
  · simp

/-- Python `s.splitlines()`. -/
def pySplitlines (s : String) : List String :=
  pySplitlinesAux s.data []

/-- Python `sep.join(pieces)`. -/
def pyJoin (sep : String) : List String → String
  | [] => ""
  | [s] => s
  | s :: r :: rest => s ++ sep ++ pyJoin sep (r :: rest)

/-- The row code of an apt.dat line: an integer when the leading token
parses as one, otherwise the literal token string. -/
inductive RowCode where
  | int (i : Int)
  | str (s : String)
deriving DecidableEq

/-- The source's `WED_LINE_ENDING` constant. -/
def WED_LINE_ENDING : String := "\n"

/-- A single line from an apt.dat file (`AptDatLine`); only the raw text is
stored, everything else is derived, exactly as in the source (where the row
code is precomputed in `__init__` from the same expression). -/
structure AptDatLine where
  raw : String
deriving DecidableEq

namespace AptDatLine

/-- Source: `self.raw.strip().split(' ')[0]`, then `int(...)` with `ValueError`
suppressed: the row code never fails to be extracted. -/
def row_code (l : AptDatLine) : RowCode :=
  let tok := (splitChar ' ' (pyStrip l.raw)).headD ""
  match pyInt tok with
  | some i => RowCode.int i
  | none => RowCode.str tok

/-- Source `AptDatLine.is_runway`. -/
def is_runway (l : AptDatLine) : Bool :=
  l.row_code = RowCode.int 100 || l.row_code = RowCode.int 101 || l.row_code = RowCode.int 102

/-- Source `AptDatLine.is_file_header`: row code `'I'`/`'A'`, or the WorldEditor
banner substring occurs in the raw text. -/
def is_file_header (l : AptDatLine) : Bool :=
  l.row_code = RowCode.str "I" || l.row_code = RowCode.str "A"
    || listContainsSub "Generated by WorldEditor".data l.raw.data

/-- Source `AptDatLine.is_ignorable`: row code 99, a file-header line, or a line
that is empty after stripping. -/
def is_ignorable (l : AptDatLine) : Bool :=
  l.row_code = RowCode.int 99 || l.is_file_header || pyStrip l.raw = ""

/-- Source `AptDatLine.is_airport_header`: row codes 1, 16, 17. -/
def is_airport_header (l : AptDatLine) : Bool :=
  l.row_code = RowCode.int 1 || l.row_code = RowCode.int 16 || l.row_code = RowCode.int 17

/-- Source `AptDatLine.__str__`: strip, then collapse runs of spaces. -/
def toNormalized (l : AptDatLine) : String :=
  collapseSpaces (pyStrip l.raw)

/-- Source `AptDatLine.tokens`: the normalized form split on single spaces. -/
def tokens (l : AptDatLine) : List String :=
  splitChar ' ' l.toNormalized

end AptDatLine

/-- The three runway row codes (`RunwayType`). -/
inductive RunwayType where
  | land
  | water
  | helipad
deriving DecidableEq

/-- Source `AptDatLine.runway_type`: the precondition (`assert self.is_runway()`)
and the `RunwayType(self.row_code)` conversion are modelled together as an
`Option`. -/
def AptDatLine.runway_type (l : AptDatLine) : Option RunwayType :=
  match l.row_code with
  | RowCode.int 100 => some RunwayType.land
  | RowCode.int 101 => some RunwayType.water
  | RowCode.int 102 => some RunwayType.helipad
  | _ => none

/-- A single airport from an apt.dat file (the `Airport` dataclass). -/
structure Airport where
  name : String
  id : String
  from_file : String
  has_atc : Bool
  elevation_ft_amsl : ℚ
  text : List AptDatLine
deriving DecidableEq

namespace Airport

/-- Source `Airport.__str__`: the raw payload lines joined with the line ending. -/
def toStr (a : Airport) : String :=
  pyJoin WED_LINE_ENDING (a.text.map AptDatLine.raw)

/-- Source expression `0.5 * (float(x) + float(y))` over two optionally-present tokens; any
missing token (`IndexError`) or failed parse (`ValueError`) is `none`. -/
def avgTok (t1 t2 : Option String) : Option ℚ :=
  match t1.bind pyFloat, t2.bind pyFloat with
  | some a, some b => some ((a + b) / 2)
  | _, _ => none

/-- Source `Airport.latitude`: the first runway line in the payload, dispatched on
its runway type; no runway line (`assert runways`) is `none`. -/
def latitude (a : Airport) : Option ℚ :=
  match a.text.find? (fun l => l.is_runway) with
  | none => none
  | some r =>
      match r.runway_type with
      | some RunwayType.land => avgTok r.tokens[9]? r.tokens[18]?
      | some RunwayType.water => avgTok r.tokens[4]? r.tokens[7]?
      | some RunwayType.helipad => r.tokens[2]?.bind pyFloat
      | none => none

/-- Source `Airport.longitude`. -/
def longitude (a : Airport) : Option ℚ :=
  match a.text.find? (fun l => l.is_runway) with
  | none => none
  | some r =>
      match r.runway_type with
      | some RunwayType.land => avgTok r.tokens[10]? r.tokens[19]?
      | some RunwayType.water => avgTok r.tokens[5]? r.tokens[8]?
      | some RunwayType.helipad => r.tokens[3]?.bind pyFloat
      | none => none

/-- The two header assertions of `Airport.from_lines`: exactly one
airport-header line in the segment. -/
def singleHeader (lines : List AptDatLine) : Option AptDatLine :=
  match lines.filter (fun l => l.is_airport_header) with
  | [h] => some h
  | _ => none

/-- Source `Airport.from_lines`: find the unique header line, extract the
positional header fields (any `IndexError`/`ValueError` is `none`), and keep
the whole segment as the payload. -/
def from_lines (lines : List AptDatLine) (from_file_name : String) : Option Airport := do
  let h ← singleHeader lines
  let t4 ← h.tokens[4]?
  let t1 ← h.tokens[1]?
  let t2 ← h.tokens[2]?
  let elev ← pyFloat t1
  let atc ← pyInt t2
  pure { name := pyJoin " " (h.tokens.drop 5)
         id := t4
         from_file := from_file_name
         has_atc := atc != 0
         elevation_ft_amsl := elev
         text := lines }

/-- Source `Airport.from_str`: split the text into lines and build through
`from_lines`. -/
def from_str (file_text : String) (from_file_name : String) : Option Airport :=
  from_lines ((pySplitlines file_text).map AptDatLine.mk) from_file_name

end Airport

/-- The container (`AptDat`): an ordered list of airports. -/
structure AptDat where
  airports : List Airport
deriving DecidableEq

/-- The loop of `AptDat._parse_text`: `acc` is the current airport's lines
(`apt_lines`), `out` the airports appended so far; any failed
`Airport.from_lines` call aborts the whole parse (`none`). -/
def segGo (from_file : String) : List AptDatLine → List AptDatLine → List Airport →
    Option (List Airport)
  | [], acc, out =>
      if acc.isEmpty then some out
      else (Airport.from_lines acc from_file).map (fun a => out ++ [a])
  | l :: rest, acc, out =>
      if l.is_airport_header then
        if acc.isEmpty then segGo from_file rest [l] out
        else
          match Airport.from_lines acc from_file with
          | none => none
          | some a => segGo from_file rest [l] (out ++ [a])
      else if l.is_ignorable then segGo from_file rest acc out
      else segGo from_file rest (acc ++ [l]) out

/-- Source `AptDat._parse_text` starting from an empty container (the
`AptDat.from_file_text` path), over an input given as a list of lines. -/
def AptDat.parse_text (apt_dat_text : List String) (from_file : String) : Option AptDat :=
  (segGo from_file (apt_dat_text.map AptDatLine.mk) [] []).map AptDat.mk

/-- Source `AptDat.search_by_predicate`. -/
def AptDat.search_by_predicate (d : AptDat) (p : Airport → Bool) : List Airport :=
  d.airports.filter p

/-- Source `AptDat.search_by_id`: case-insensitive exact id match; `some none` is
Python's `None` return (no match), the outer `none` is the failed
uniqueness assertion (two or more matches). -/
def AptDat.search_by_id (d : AptDat) (apt_id : String) : Option (Option Airport) :=
  match d.search_by_predicate (fun a => pyUpper a.id = pyUpper apt_id) with
  | [] => some none
  | [a] => some (some a)
  | _ => none

/-- Python `list[i]` indexing including negative indices; out of range
(`IndexError`) is `none`. -/
def pyListIndex {α : Type} (l : List α) (i : Int) : Option α :=
  if 0 ≤ i then l[i.toNat]?
  else if 0 ≤ i + l.length then l[(i + l.length).toNat]?
  else none

/-- Source `AptDat.__getitem__` restricted to integer keys: the bounds assertion
checks only `key < len(self.airports)`, then Python list indexing runs. -/
def AptDat.getitem_int (d : AptDat) (key : Int) : Option Airport :=
  if key < (d.airports.length : Int) then pyListIndex d.airports key
  else none

/-! ## Helper lemmas about `Airport.from_lines` -/

theorem singleHeader_filter {lines : List AptDatLine} {hd : AptDatLine}
    (hh : Airport.singleHeader lines = some hd) :
    lines.filter (fun l => l.is_airport_header) = [hd] := by
  unfold Airport.singleHeader at hh
  split at hh
  · rename_i h0 heq
    injection hh with hh
    rw [heq, hh]
  · exact absurd hh (by simp)

theorem singleHeader_of_filter {lines : List AptDatLine} {hd : AptDatLine}
    (hfil : lines.filter (fun l => l.is_airport_header) = [hd]) :
    Airport.singleHeader lines = some hd := by
  unfold Airport.singleHeader
  rw [hfil]

theorem from_lines_some_inv {lines : List AptDatLine} {f : String} {apt : Airport}
    (h : Airport.from_lines lines f = some apt) :
    apt.text = lines ∧ ∃ hd, lines.filter (fun l => l.is_airport_header) = [hd] := by
  simp only [Airport.from_lines, bind, Option.bind_eq_some, Option.pure_def,
    Option.some.injEq] at h
  obtain ⟨hd, hhd, t4, ht4, t1, ht1, t2, ht2, e, he, i, hi, happ⟩ := h
  refine ⟨?_, hd, singleHeader_filter hhd⟩
  rw [← happ]

/-- C3: for a segment with exactly one airport-header line whose positional
header fields are present and parse, `Airport.from_lines` builds the airport
with elevation from token 1, ATC flag from token 2, id from token 4, name
from tokens 5 onward joined with single spaces, and the full original
segment, in order, as the payload. -/
theorem from_lines_builds (lines : List AptDatLine) (f : String) (hd : AptDatLine)
    (hfil : lines.filter (fun l => l.is_airport_header) = [hd])
    (t1 t2 t4 : String)
    (ht1 : hd.tokens[1]? = some t1) (ht2 : hd.tokens[2]? = some t2)
    (ht4 : hd.tokens[4]? = some t4)
    (e : ℚ) (he : pyFloat t1 = some e) (i : Int) (hi : pyInt t2 = some i) :
    Airport.from_lines lines f =
      some { name := pyJoin " " (hd.tokens.drop 5), id := t4, from_file := f,
             has_atc := i != 0, elevation_ft_amsl := e, text := lines } := by
  have hs : Airport.singleHeader lines = some hd := singleHeader_of_filter hfil
  simp [Airport.from_lines, hs, ht1, ht2, ht4, he, hi]

/-- C3 witness: a concrete one-line segment built by `from_lines`. -/
theorem from_lines_builds_witness :
    Airport.from_lines [AptDatLine.mk "1 330 0 0 KSEA Seattle Tacoma Intl"] "apt.dat" =
      some { name := pyJoin " "
               ((AptDatLine.mk "1 330 0 0 KSEA Seattle Tacoma Intl").tokens.drop 5),
             id := "KSEA", from_file := "apt.dat", has_atc := ((0 : Int) != 0),
             elevation_ft_amsl := 330,
             text := [AptDatLine.mk "1 330 0 0 KSEA Seattle Tacoma Intl"] } :=
  from_lines_builds [AptDatLine.mk "1 330 0 0 KSEA Seattle Tacoma Intl"] "apt.dat"
    (AptDatLine.mk "1 330 0 0 KSEA Seattle Tacoma Intl") (by decide)
    "330" "0" "KSEA" (by decide) (by decide) (by decide) 330 (by decide) 0 (by decide)

/-! ## Helper lemmas about the segmentation fold -/

theorem from_lines_headed {acc : List AptDatLine} {f : String} {a : Airport}
    (hacc : ∀ l ∈ acc.drop 1, l.is_airport_header = false)
    (h : Airport.from_lines acc f = some a) :
    (a.text.head?.map fun l => l.is_airport_header) = some true ∧
    (a.text.filter fun l => l.is_airport_header).length = 1 := by
  obtain ⟨htext, hd, hfil⟩ := from_lines_some_inv h
  rw [htext]
  clear htext h
  cases acc with
  | nil => simp at hfil
  | cons x xs =>
    have hxs : ∀ l ∈ xs, l.is_airport_header = false := by
      intro l hl
      exact hacc l (by simpa using hl)
    have hfxs : xs.filter (fun l => l.is_airport_header) = [] := by
      rw [List.filter_eq_nil_iff]
      intro l hl
      simp [hxs l hl]
    by_cases hx : x.is_airport_header
    · rw [List.filter_cons_of_pos hx, hfxs]
      simp [hx]
    · rw [List.filter_cons_of_neg hx, hfxs] at hfil
      exact absurd hfil (by simp)

theorem segGo_headed (f : String) : ∀ (rest acc : List AptDatLine) (out apts : List Airport),
    (∀ l ∈ acc.drop 1, l.is_airport_header = false) →
    (∀ a ∈ out, (a.text.head?.map fun l => l.is_airport_header) = some true ∧
      (a.text.filter fun l => l.is_airport_header).length = 1) →
    segGo f rest acc out = some apts →
    ∀ a ∈ apts, (a.text.head?.map fun l => l.is_airport_header) = some true ∧
      (a.text.filter fun l => l.is_airport_header).length = 1 := by
  intro rest
  induction rest with
  | nil =>
    intro acc out apts hacc hout hseg
    by_cases hne : acc.isEmpty
    · simp only [segGo, hne, if_true] at hseg
      injection hseg with hseg
      subst hseg
      exact hout
    · simp only [segGo, hne, if_false, Bool.false_eq_true] at hseg
      obtain ⟨a, hfl, happ⟩ := Option.map_eq_some'.mp hseg
      subst happ
      intro b hb
      rcases List.mem_append.mp hb with hb | hb
      · exact hout b hb
      · rw [List.mem_singleton.mp hb]
        exact from_lines_headed hacc hfl
  | cons l rest ih =>
    intro acc out apts hacc hout hseg
    simp only [segGo] at hseg
    by_cases hl : l.is_airport_header
    · rw [if_pos hl] at hseg
      by_cases hne : acc.isEmpty
      · rw [if_pos hne] at hseg
        exact ih [l] out apts (by simp) hout hseg
      · rw [if_neg hne] at hseg
        cases hfl : Airport.from_lines acc f with
        | none => rw [hfl] at hseg; exact absurd hseg (by simp)
        | some a =>
          rw [hfl] at hseg
          have ha := from_lines_headed hacc hfl
          refine ih [l] (out ++ [a]) apts (by simp) ?_ hseg
          intro b hb
          rcases List.mem_append.mp hb with hb | hb
          · exact hout b hb
          · rw [List.mem_singleton.mp hb]; exact ha
    · rw [if_neg hl] at hseg
      by_cases hig : l.is_ignorable
      · rw [if_pos hig] at hseg
        exact ih acc out apts hacc hout hseg
      · rw [if_neg hig] at hseg
        refine ih (acc ++ [l]) out apts ?_ hout hseg
        intro m hm
        cases acc with
        | nil => simp at hm
        | cons x xs =>
          simp only [List.cons_append, List.drop_succ_cons, List.drop_zero] at hm
          rcases List.mem_append.mp hm with hm | hm
          · exact hacc m (by simpa using hm)
          · rw [List.mem_singleton.mp hm]
            exact Bool.not_eq_true _ ▸ (by simpa using hl)

theorem segGo_run (f : String) : ∀ (rest acc : List AptDatLine) (out : List Airport),
    acc ≠ [] →
    (∀ l ∈ rest, l.is_airport_header = false ∧ l.is_ignorable = false) →
    segGo f rest acc out = (Airport.from_lines (acc ++ rest) f).map fun a => out ++ [a] := by
  intro rest
  induction rest with
  | nil =>
    intro acc out hne _
    have hemp : acc.isEmpty = false := by
      cases acc with
      | nil => exact absurd rfl hne
      | cons x xs => rfl
    simp [segGo, hemp]
  | cons l rest ih =>
    intro acc out hne hrest
    obtain ⟨hl, hig⟩ := hrest l (by simp)
    have hrest' : ∀ m ∈ rest, m.is_airport_header = false ∧ m.is_ignorable = false := by
      intro m hm
      exact hrest m (by simp [hm])
    simp only [segGo, hl, hig, Bool.false_eq_true, if_false]
    rw [ih (acc ++ [l]) out (by simp) hrest']
    simp

/-- C1 (amended): an input consisting of one airport-header line, not itself
ignorable, followed by non-ignorable non-header lines, and whose header
fields parse (so that the airport is actually built), parses to exactly that
one airport; its payload is the header followed by those lines in input
order and contains no ignorable line.  (As literally stated the claim is
false on two counts, see the counterexample: a header whose fields do not
parse yields a failed parse rather than one airport, and a header line
containing the WorldEditor banner substring is itself ignorable yet appears
in the payload.) -/
theorem parse_single_airport (hdr : String) (post : List String) (f : String) (apt : Airport)
    (hh : (AptDatLine.mk hdr).is_airport_header = true)
    (hig : (AptDatLine.mk hdr).is_ignorable = false)
    (hpost : ∀ s ∈ post, (AptDatLine.mk s).is_airport_header = false ∧
      (AptDatLine.mk s).is_ignorable = false)
    (hbuild : Airport.from_lines (AptDatLine.mk hdr :: post.map AptDatLine.mk) f = some apt) :
    AptDat.parse_text (hdr :: post) f = some (AptDat.mk [apt]) ∧
    apt.text = AptDatLine.mk hdr :: post.map AptDatLine.mk ∧
    ∀ l ∈ apt.text, l.is_ignorable = false := by
  have htext := (from_lines_some_inv hbuild).1
  have hpost' : ∀ m ∈ post.map AptDatLine.mk,
      m.is_airport_header = false ∧ m.is_ignorable = false := by
    intro m hm
    obtain ⟨s, hs, rfl⟩ := List.mem_map.mp hm
    exact hpost s hs
  refine ⟨?_, htext, ?_⟩
  · unfold AptDat.parse_text
    simp only [List.map_cons]
    simp only [segGo, hh, if_true, List.isEmpty_nil]
    rw [segGo_run f (post.map AptDatLine.mk) [AptDatLine.mk hdr] [] (by simp) hpost']
    rw [List.singleton_append, hbuild]
    rfl
  · intro l hl
    rw [htext] at hl
    rcases List.mem_cons.mp hl with rfl | hm
    · exact hig
    · exact (hpost' l hm).2

/-- C1 witness: a header followed by one runway line parses to exactly that
airport, with the full two-line payload and no ignorable line in it. -/
theorem parse_single_airport_witness :
    AptDat.parse_text ["1 330 0 0 KSEA Seattle",
        "100 29.5 1 0 0.25 0 1 1 16R 47.0 -122.0 0 0 3 0 0 1 34L 47.0 -122.0 0 0 3 0 0 1"] "f"
      = some (AptDat.mk [Airport.mk "Seattle" "KSEA" "f" false 330
          [AptDatLine.mk "1 330 0 0 KSEA Seattle",
            AptDatLine.mk
              "100 29.5 1 0 0.25 0 1 1 16R 47.0 -122.0 0 0 3 0 0 1 34L 47.0 -122.0 0 0 3 0 0 1"]]) ∧
    (Airport.mk "Seattle" "KSEA" "f" false 330
          [AptDatLine.mk "1 330 0 0 KSEA Seattle",
            AptDatLine.mk
              "100 29.5 1 0 0.25 0 1 1 16R 47.0 -122.0 0 0 3 0 0 1 34L 47.0 -122.0 0 0 3 0 0 1"]).text
      = AptDatLine.mk "1 330 0 0 KSEA Seattle" ::
          ["100 29.5 1 0 0.25 0 1 1 16R 47.0 -122.0 0 0 3 0 0 1 34L 47.0 -122.0 0 0 3 0 0 1"].map
            AptDatLine.mk ∧
    ∀ l ∈ (Airport.mk "Seattle" "KSEA" "f" false 330
          [AptDatLine.mk "1 330 0 0 KSEA Seattle",
            AptDatLine.mk
              "100 29.5 1 0 0.25 0 1 1 16R 47.0 -122.0 0 0 3 0 0 1 34L 47.0 -122.0 0 0 3 0 0 1"]).text,
      l.is_ignorable = false :=
  parse_single_airport "1 330 0 0 KSEA Seattle"
    ["100 29.5 1 0 0.25 0 1 1 16R 47.0 -122.0 0 0 3 0 0 1 34L 47.0 -122.0 0 0 3 0 0 1"] "f"
    _ (by decide) (by decide) (by decide) (by decide)

/-- C1 counterexample: on input `["1"]` (one header line followed by no
further lines) the parse fails instead of yielding one airport, because the
header's positional fields are missing; and a header line containing the
WorldEditor banner substring is itself ignorable yet parses to an airport
whose payload contains it. -/
theorem parse_single_airport_cex :
    AptDat.parse_text ["1"] "f" = none ∧
    (AptDatLine.mk "1").is_airport_header = true ∧
    (AptDatLine.mk "1").is_ignorable = false ∧
    AptDat.parse_text ["1 330 0 0 KSEA Generated by WorldEditor"] "f"
      = some (AptDat.mk [Airport.mk "Generated by WorldEditor" "KSEA" "f" false 330
          [AptDatLine.mk "1 330 0 0 KSEA Generated by WorldEditor"]]) ∧
    (AptDatLine.mk "1 330 0 0 KSEA Generated by WorldEditor").is_ignorable = true := by
  decide

/-- C9 (amended): every airport successfully built by `Airport.from_lines`
(hence by `from_str`) keeps the full input segment as its payload and that
payload contains exactly one airport-header line; every airport produced by
`AptDat._parse_text` additionally has that header line at position 0 of the
payload.  (As literally stated the claim is false: `from_lines` enforces
uniqueness of the header but not its position, see the counterexample.) -/
theorem header_position_invariant :
    (∀ (lines : List AptDatLine) (f : String) (apt : Airport),
        Airport.from_lines lines f = some apt →
        apt.text = lines ∧ (apt.text.filter fun l => l.is_airport_header).length = 1)
    ∧ (∀ (ls : List String) (f : String) (d : AptDat),
        AptDat.parse_text ls f = some d →
        ∀ apt ∈ d.airports,
          (apt.text.head?.map fun l => l.is_airport_header) = some true ∧
          (apt.text.filter fun l => l.is_airport_header).length = 1) := by
  constructor
  · intro lines f apt h
    obtain ⟨htext, hd, hfil⟩ := from_lines_some_inv h
    exact ⟨htext, by rw [htext, hfil]; rfl⟩
  · intro ls f d hparse apt hmem
    unfold AptDat.parse_text at hparse
    obtain ⟨apts, hseg, hd⟩ := Option.map_eq_some'.mp hparse
    refine segGo_headed f (ls.map AptDatLine.mk) [] [] apts (by simp) (by simp) hseg apt ?_
    rw [← hd] at hmem
    exact hmem

/-- C9 witness: a one-line input parsed by `_parse_text` yields an airport
whose payload starts with its unique header line. -/
theorem header_position_invariant_witness :
    ((Airport.mk "B" "A" "f" false 330 [AptDatLine.mk "1 330 0 0 A B"]).text.head?.map
        fun l => l.is_airport_header) = some true ∧
    ((Airport.mk "B" "A" "f" false 330 [AptDatLine.mk "1 330 0 0 A B"]).text.filter
        fun l => l.is_airport_header).length = 1 :=
  header_position_invariant.2 ["1 330 0 0 A B"] "f"
    (AptDat.mk [Airport.mk "B" "A" "f" false 330 [AptDatLine.mk "1 330 0 0 A B"]])
    (by decide)
    (Airport.mk "B" "A" "f" false 330 [AptDatLine.mk "1 330 0 0 A B"])
    (by simp)

/-- C9 counterexample: `Airport.from_lines` happily builds an airport from a
segment whose unique header line sits at position 1, behind an ignorable
`99` line, so the produced payload does not have its header at position 0. -/
theorem header_position_invariant_cex :
    Airport.from_lines [AptDatLine.mk "99", AptDatLine.mk "1 330 0 0 XXX N"] "f"
      = some (Airport.mk "N" "XXX" "f" false 330
          [AptDatLine.mk "99", AptDatLine.mk "1 330 0 0 XXX N"]) ∧
    (AptDatLine.mk "99").is_airport_header = false := by
  decide

/-! ## C5: parsing input with no airport-header line -/

theorem from_lines_no_header {acc : List AptDatLine} {f : String}
    (h : ∀ l ∈ acc, l.is_airport_header = false) :
    Airport.from_lines acc f = none := by
  have hfil : acc.filter (fun l => l.is_airport_header) = [] := by
    rw [List.filter_eq_nil_iff]
    intro l hl
    simp [h l hl]
  have hs : Airport.singleHeader acc = none := by
    unfold Airport.singleHeader
    rw [hfil]
  simp [Airport.from_lines, hs]

theorem segGo_no_header (f : String) : ∀ (rest acc : List AptDatLine) (out : List Airport),
    (∀ l ∈ rest, l.is_airport_header = false) →
    (∀ l ∈ acc, l.is_airport_header = false) →
    segGo f rest acc out =
      if acc ++ rest.filter (fun l => !l.is_ignorable) = [] then some out else none := by
  intro rest
  induction rest with
  | nil =>
    intro acc out _ hacc
    cases hc : acc with
    | nil => simp [segGo]
    | cons x xs =>
      rw [hc] at hacc
      simp [segGo, from_lines_no_header hacc]
  | cons l rest ih =>
    intro acc out hrest hacc
    have hl := hrest l (by simp)
    have hrest' : ∀ m ∈ rest, m.is_airport_header = false := fun m hm => hrest m (by simp [hm])
    simp only [segGo, hl, Bool.false_eq_true, if_false]
    by_cases hig : l.is_ignorable
    · rw [if_pos hig, ih acc out hrest' hacc]
      simp [hig]
    · rw [if_neg hig, ih (acc ++ [l]) out hrest' ?_]
      · simp [List.filter_cons, hig]
      · intro m hm
        rcases List.mem_append.mp hm with hm | hm
        · exact hacc m hm
        · rw [List.mem_singleton.mp hm]; exact hl

/-- C5 (amended): on input containing zero airport-header lines,
`_parse_text` yields zero airports when every line is ignorable; when some
line is not ignorable, the parse fails (the trailing headerless group cannot
be built into an airport) rather than succeeding with zero airports.  (As
literally stated — zero groups and no error for every header-free input —
the claim is false, see the counterexample.) -/
theorem parse_no_header (ls : List String) (f : String)
    (h : ∀ s ∈ ls, (AptDatLine.mk s).is_airport_header = false) :
    AptDat.parse_text ls f =
      if ls.all (fun s => (AptDatLine.mk s).is_ignorable) then some (AptDat.mk []) else none := by
  unfold AptDat.parse_text
  have hmap : ∀ l ∈ ls.map AptDatLine.mk, l.is_airport_header = false := by
    intro l hl
    obtain ⟨s, hs, rfl⟩ := List.mem_map.mp hl
    exact h s hs
  rw [segGo_no_header f (ls.map AptDatLine.mk) [] [] hmap (by simp)]
  by_cases hall : ls.all (fun s => (AptDatLine.mk s).is_ignorable)
  · have : (ls.map AptDatLine.mk).filter (fun l => !l.is_ignorable) = [] := by
      rw [List.filter_eq_nil_iff]
      intro l hl
      obtain ⟨s, hs, rfl⟩ := List.mem_map.mp hl
      have := List.all_eq_true.mp hall s hs
      simp [this]
    simp [this, hall]
  · have : (ls.map AptDatLine.mk).filter (fun l => !l.is_ignorable) ≠ [] := by
      intro hnil
      refine hall ?_
      rw [List.all_eq_true]
      intro s hs
      by_contra hig
      have hmem : AptDatLine.mk s ∈ (ls.map AptDatLine.mk).filter (fun l => !l.is_ignorable) := by
        rw [List.mem_filter]
        exact ⟨List.mem_map_of_mem AptDatLine.mk hs, by simpa using hig⟩
      rw [hnil] at hmem
      exact absurd hmem (List.not_mem_nil _)
    simp [this, hall]

/-- C5 witness: an input whose only line is the ignorable `99` sentinel
parses to a container with zero airports and no error. -/
theorem parse_no_header_witness :
    AptDat.parse_text ["99"] "f" =
      if ["99"].all (fun s => (AptDatLine.mk s).is_ignorable) then some (AptDat.mk []) else none :=
  parse_no_header ["99"] "f" (by decide)

/-- C5 counterexample: a header-free input with one non-ignorable line makes
`_parse_text` fail (`MissingHeader` when building the trailing group), so it
does not "yield zero groups without error". -/
theorem parse_no_header_cex :
    AptDat.parse_text ["foo"] "f" = none ∧
    (AptDatLine.mk "foo").is_airport_header = false ∧
    (AptDatLine.mk "foo").is_ignorable = false := by
  decide

/-! ## C2: coordinate derivation from the first runway line -/

/-- C2: `latitude`/`longitude` scan the payload in order for the first line
with `is_runway` true and fail when none exists; on a land runway (row code
100) they average tokens 9/18 and 10/19, on a water runway (101) tokens 4/7
and 5/8, and on a helipad (102) they are tokens 2 and 3 with no averaging,
each token parsed as a decimal number. -/
theorem geometry_first_runway (apt : Airport) :
    ((∀ l ∈ apt.text, l.is_runway = false) → apt.latitude = none ∧ apt.longitude = none)
    ∧ ∀ r, apt.text.find? (fun l => l.is_runway) = some r →
        ((r.row_code = RowCode.int 100 →
            ∀ t9 t18 t10 t19 : String, ∀ a b c d : ℚ,
              r.tokens[9]? = some t9 → pyFloat t9 = some a →
              r.tokens[18]? = some t18 → pyFloat t18 = some b →
              r.tokens[10]? = some t10 → pyFloat t10 = some c →
              r.tokens[19]? = some t19 → pyFloat t19 = some d →
              apt.latitude = some ((a + b) / 2) ∧ apt.longitude = some ((c + d) / 2))
        ∧ (r.row_code = RowCode.int 101 →
            ∀ t4 t7 t5 t8 : String, ∀ a b c d : ℚ,
              r.tokens[4]? = some t4 → pyFloat t4 = some a →
              r.tokens[7]? = some t7 → pyFloat t7 = some b →
              r.tokens[5]? = some t5 → pyFloat t5 = some c →
              r.tokens[8]? = some t8 → pyFloat t8 = some d →
              apt.latitude = some ((a + b) / 2) ∧ apt.longitude = some ((c + d) / 2))
        ∧ (r.row_code = RowCode.int 102 →
            ∀ t2 t3 : String, ∀ a b : ℚ,
              r.tokens[2]? = some t2 → pyFloat t2 = some a →
              r.tokens[3]? = some t3 → pyFloat t3 = some b →
              apt.latitude = some a ∧ apt.longitude = some b)) := by
  constructor
  · intro h
    have hf : apt.text.find? (fun l => l.is_runway) = none := by
      rw [List.find?_eq_none]
      intro x hx
      simp [h x hx]
    constructor <;> simp [Airport.latitude, Airport.longitude, hf]
  · intro r hr
    refine ⟨?_, ?_, ?_⟩
    · intro hcode t9 t18 t10 t19 a b c d ht9 ha ht18 hb ht10 hc ht19 hd
      have hrt : r.runway_type = some RunwayType.land := by
        unfold AptDatLine.runway_type
        rw [hcode]
        decide
      constructor
      · simp [Airport.latitude, hr, hrt, Airport.avgTok, ht9, ha, ht18, hb]
      · simp [Airport.longitude, hr, hrt, Airport.avgTok, ht10, hc, ht19, hd]
    · intro hcode t4 t7 t5 t8 a b c d ht4 ha ht7 hb ht5 hc ht8 hd
      have hrt : r.runway_type = some RunwayType.water := by
        unfold AptDatLine.runway_type
        rw [hcode]
        decide
      constructor
      · simp [Airport.latitude, hr, hrt, Airport.avgTok, ht4, ha, ht7, hb]
      · simp [Airport.longitude, hr, hrt, Airport.avgTok, ht5, hc, ht8, hd]
    · intro hcode t2 t3 a b ht2 ha ht3 hb
      have hrt : r.runway_type = some RunwayType.helipad := by
        unfold AptDatLine.runway_type
        rw [hcode]
        decide
      constructor
      · simp [Airport.latitude, hr, hrt, ht2, ha]
      · simp [Airport.longitude, hr, hrt, ht3, hb]

/-- C2 witness: the degenerate equal-endpoint land runway, whose latitude
and longitude resolve to the averages of the two runway-end coordinates. -/
theorem geometry_first_runway_witness :
    (Airport.mk "S" "KSEA" "f" false 330
        [AptDatLine.mk "1 330 0 0 KSEA S",
          AptDatLine.mk
            "100 29.5 1 0 0.25 0 1 1 16R 47.0 -122.0 0 0 3 0 0 1 34L 47.0 -122.0 0 0 3 0 0 1"]).latitude
      = some (((47 : ℚ) + 47) / 2) ∧
    (Airport.mk "S" "KSEA" "f" false 330
        [AptDatLine.mk "1 330 0 0 KSEA S",
          AptDatLine.mk
            "100 29.5 1 0 0.25 0 1 1 16R 47.0 -122.0 0 0 3 0 0 1 34L 47.0 -122.0 0 0 3 0 0 1"]).longitude
      = some ((((-122) : ℚ) + (-122)) / 2) :=
  ((geometry_first_runway _).2
      (AptDatLine.mk
        "100 29.5 1 0 0.25 0 1 1 16R 47.0 -122.0 0 0 3 0 0 1 34L 47.0 -122.0 0 0 3 0 0 1")
      (by decide)).1 (by decide)
    "47.0" "47.0" "-122.0" "-122.0" 47 47 (-122) (-122)
    (by decide) (by decide) (by decide) (by decide)
    (by decide) (by decide) (by decide) (by decide)

/-! ## C8: id lookup -/

/-- C8: `search_by_id` matches airports by case-insensitive exact id
comparison; zero matches return the explicit absent result, exactly one
match returns that airport, and two or more matches fail the uniqueness
assertion. -/
theorem search_by_id_trichotomy (d : AptDat) (key : String) :
    (d.airports.filter (fun a => pyUpper a.id = pyUpper key) = [] →
      d.search_by_id key = some none)
    ∧ (∀ a, d.airports.filter (fun a => pyUpper a.id = pyUpper key) = [a] →
      d.search_by_id key = some (some a))
    ∧ (2 ≤ (d.airports.filter (fun a => pyUpper a.id = pyUpper key)).length →
      d.search_by_id key = none) := by
  refine ⟨?_, ?_, ?_⟩
  · intro h
    unfold AptDat.search_by_id AptDat.search_by_predicate
    rw [h]
  · intro a h
    unfold AptDat.search_by_id AptDat.search_by_predicate
    rw [h]
  · intro h
    unfold AptDat.search_by_id AptDat.search_by_predicate
    cases hfil : d.airports.filter (fun a => pyUpper a.id = pyUpper key) with
    | nil => rw [hfil] at h; simp at h
    | cons x xs =>
      cases xs with
      | nil => rw [hfil] at h; simp at h
      | cons y ys => rfl

/-- C8 witness: an airport stored with id `"ksea"` is found by the lookup
key `"KSEA"` (the spec's case-insensitivity example). -/
theorem search_by_id_trichotomy_witness :
    (AptDat.mk [Airport.mk "S" "ksea" "f" false 330 []]).search_by_id "KSEA"
      = some (some (Airport.mk "S" "ksea" "f" false 330 [])) :=
  (search_by_id_trichotomy (AptDat.mk [Airport.mk "S" "ksea" "f" false 330 []]) "KSEA").2.1
    (Airport.mk "S" "ksea" "f" false 330 []) (by decide)

/-! ## C10: negative integer indexing -/

/-- C10: for a container with `n` airports and a negative key `k` with
`-n ≤ k ≤ -1`, `__getitem__` passes the (upper-bound-only) bounds assertion
and returns the airport at position `n + k`. -/
theorem getitem_int_negative (d : AptDat) (k : Int)
    (h1 : -(d.airports.length : Int) ≤ k) (h2 : k ≤ -1) :
    d.getitem_int k = d.airports[((d.airports.length : Int) + k).toNat]? ∧
    (d.getitem_int k).isSome = true := by
  have hlt : k < (d.airports.length : Int) := by omega
  have hk0 : ¬ 0 ≤ k := by omega
  have hkn : 0 ≤ k + (d.airports.length : Int) := by omega
  have hidx : (k + (d.airports.length : Int)).toNat < d.airports.length := by omega
  have heq : d.getitem_int k = d.airports[(k + (d.airports.length : Int)).toNat]? := by
    unfold AptDat.getitem_int pyListIndex
    rw [if_pos hlt, if_neg hk0, if_pos hkn]
  constructor
  · rw [heq]
    congr 1
    omega
  · rw [heq, List.getElem?_eq_getElem hidx]
    rfl

/-- C10 witness: a two-airport container indexed with `-1` yields the last
airport. -/
theorem getitem_int_negative_witness :
    (AptDat.mk [Airport.mk "S" "a" "f" false 0 [], Airport.mk "T" "b" "f" false 0 []]).getitem_int
        (-1)
      = (AptDat.mk [Airport.mk "S" "a" "f" false 0 [],
          Airport.mk "T" "b" "f" false 0 []]).airports[(((AptDat.mk [Airport.mk "S" "a" "f" false 0 [],
          Airport.mk "T" "b" "f" false 0 []]).airports.length : Int) + (-1)).toNat]? ∧
    ((AptDat.mk [Airport.mk "S" "a" "f" false 0 [],
        Airport.mk "T" "b" "f" false 0 []]).getitem_int (-1)).isSome = true :=
  getitem_int_negative
    (AptDat.mk [Airport.mk "S" "a" "f" false 0 [], Airport.mk "T" "b" "f" false 0 []]) (-1)
    (by decide) (by decide)

/-! ## C4: single-airport round trip through `from_str` -/

theorem pySplitlinesAux_cons_other {c : Char} (r acc : List Char)
    (h1 : c ≠ '\n') (h2 : c ≠ '\r') :
    pySplitlinesAux (c :: r) acc = pySplitlinesAux r (c :: acc) := by
  simp [pySplitlinesAux, h1, h2]

theorem pySplitlinesAux_line (cs : List Char) (h : ∀ c ∈ cs, c ≠ '\n' ∧ c ≠ '\r')
    (t : List Char) : ∀ acc : List Char,
    pySplitlinesAux (cs ++ '\n' :: t) acc =
      String.mk (acc.reverse ++ cs) :: pySplitlinesAux t [] := by
  induction cs with
  | nil =>
    intro acc
    simp [pySplitlinesAux]
  | cons c cs ih =>
    intro acc
    obtain ⟨h1, h2⟩ := h c (by simp)
    have h' : ∀ x ∈ cs, x ≠ '\n' ∧ x ≠ '\r' := fun x hx => h x (by simp [hx])
    rw [List.cons_append, pySplitlinesAux_cons_other _ _ h1 h2, ih h' (c :: acc)]
    simp

theorem pySplitlinesAux_last (cs : List Char) (h : ∀ c ∈ cs, c ≠ '\n' ∧ c ≠ '\r') :
    ∀ acc : List Char, acc.reverse ++ cs ≠ [] →
    pySplitlinesAux cs acc = [String.mk (acc.reverse ++ cs)] := by
  induction cs with
  | nil =>
    intro acc hne
    cases acc with
    | nil => simp at hne
    | cons x xs => simp [pySplitlinesAux]
  | cons c cs ih =>
    intro acc hne
    obtain ⟨h1, h2⟩ := h c (by simp)
    have h' : ∀ x ∈ cs, x ≠ '\n' ∧ x ≠ '\r' := fun x hx => h x (by simp [hx])
    rw [pySplitlinesAux_cons_other _ _ h1 h2, ih h' (c :: acc) (by simp)]
    simp

theorem pySplitlines_join (lines : List String) (hne : lines ≠ [])
    (hchars : ∀ s ∈ lines, ∀ c ∈ s.data, c ≠ '\n' ∧ c ≠ '\r')
    (hlast : lines.getLast? ≠ some "") :
    pySplitlines (pyJoin "\n" lines) = lines := by
  induction lines with
  | nil => exact absurd rfl hne
  | cons a rest ih =>
    cases rest with
    | nil =>
      have ha : a ≠ "" := by
        intro hcon
        exact hlast (by simp [hcon])
      have hadata : a.data ≠ [] := by
        intro hcon
        refine ha ?_
        cases a with
        | mk d => simp at hcon; simp [hcon]
      unfold pySplitlines pyJoin
      rw [pySplitlinesAux_last a.data (hchars a (by simp)) [] (by simpa using hadata)]
      simp
    | cons b rest2 =>
      have hdata : (pyJoin "\n" (a :: b :: rest2)).data
          = a.data ++ '\n' :: (pyJoin "\n" (b :: rest2)).data := by
        show (a ++ "\n" ++ pyJoin "\n" (b :: rest2)).data = _
        show a.data ++ "\n".data ++ (pyJoin "\n" (b :: rest2)).data = _
        simp
      unfold pySplitlines
      rw [hdata, pySplitlinesAux_line a.data (hchars a (by simp)) _ []]
      have hrest : pySplitlinesAux (pyJoin "\n" (b :: rest2)).data [] = b :: rest2 := by
        refine ih (by simp) ?_ ?_
        · intro s hs
          exact hchars s (by simp [hs])
        · rw [List.getLast?_cons_cons] at hlast
          exact hlast
      rw [hrest]
      simp

/-- C4: for well-formed single-airport text — newline-joined lines with no
terminator characters inside them, a nonempty last line, exactly one header
line whose fields parse (`from_lines` succeeds), and at least one runway
line — `from_str` builds the airport and re-serializing it (joining the
payload's raw lines with the newline terminator) reproduces the original
text, hence the original payload lines, byte for byte. -/
theorem from_str_roundtrip (lines : List String) (f : String) (apt : Airport)
    (hne : lines ≠ [])
    (hchars : ∀ s ∈ lines, ∀ c ∈ s.data, c ≠ '\n' ∧ c ≠ '\r')
    (hlast : lines.getLast? ≠ some "")
    (hbuild : Airport.from_lines (lines.map AptDatLine.mk) f = some apt)
    (_hrwy : ∃ s ∈ lines, (AptDatLine.mk s).is_runway = true) :
    Airport.from_str (pyJoin WED_LINE_ENDING lines) f = some apt ∧
    Airport.toStr apt = pyJoin WED_LINE_ENDING lines := by
  have hsplit := pySplitlines_join lines hne hchars hlast
  constructor
  · unfold Airport.from_str
    simp only [WED_LINE_ENDING]
    rw [hsplit, hbuild]
  · have htext := (from_lines_some_inv hbuild).1
    unfold Airport.toStr
    rw [htext, List.map_map]
    have : AptDatLine.raw ∘ AptDatLine.mk = id := rfl
    rw [this, List.map_id]

/-- C4 witness: a concrete two-line airport round-trips byte for byte. -/
theorem from_str_roundtrip_witness :
    Airport.from_str
        (pyJoin WED_LINE_ENDING ["1 330 0 0 KSEA S",
          "100 29.5 1 0 0.25 0 1 1 16R 47.0 -122.0 0 0 3 0 0 1 34L 47.0 -122.0 0 0 3 0 0 1"]) "f"
      = some (Airport.mk "S" "KSEA" "f" false 330
          [AptDatLine.mk "1 330 0 0 KSEA S",
            AptDatLine.mk
              "100 29.5 1 0 0.25 0 1 1 16R 47.0 -122.0 0 0 3 0 0 1 34L 47.0 -122.0 0 0 3 0 0 1"]) ∧
    Airport.toStr (Airport.mk "S" "KSEA" "f" false 330
          [AptDatLine.mk "1 330 0 0 KSEA S",
            AptDatLine.mk
              "100 29.5 1 0 0.25 0 1 1 16R 47.0 -122.0 0 0 3 0 0 1 34L 47.0 -122.0 0 0 3 0 0 1"])
      = pyJoin WED_LINE_ENDING ["1 330 0 0 KSEA S",
          "100 29.5 1 0 0.25 0 1 1 16R 47.0 -122.0 0 0 3 0 0 1 34L 47.0 -122.0 0 0 3 0 0 1"] :=
  from_str_roundtrip ["1 330 0 0 KSEA S",
      "100 29.5 1 0 0.25 0 1 1 16R 47.0 -122.0 0 0 3 0 0 1 34L 47.0 -122.0 0 0 3 0 0 1"] "f"
    (Airport.mk "S" "KSEA" "f" false 330
      [AptDatLine.mk "1 330 0 0 KSEA S",
        AptDatLine.mk
          "100 29.5 1 0 0.25 0 1 1 16R 47.0 -122.0 0 0 3 0 0 1 34L 47.0 -122.0 0 0 3 0 0 1"])
    (by decide) (by decide) (by decide) (by decide) (by decide)

/-! ## C7: row-code extraction -/

theorem splitCharAux_headD (sep : Char) : ∀ (cs acc : List Char),
    (splitCharAux sep cs acc).headD ""
      = String.mk (acc.reverse ++ cs.takeWhile (fun c => c != sep)) := by
  intro cs
  induction cs with
  | nil => intro acc; simp [splitCharAux]
  | cons c cs ih =>
    intro acc
    by_cases hc : c = sep
    · subst hc
      simp [splitCharAux, List.takeWhile_cons]
    · simp only [splitCharAux, if_neg hc, ih (c :: acc), List.takeWhile_cons]
      have : (c != sep) = true := by simpa using hc
      rw [this]
      simp

theorem splitChar_headD (sep : Char) (s : String) :
    (splitChar sep s).headD "" = String.mk (s.data.takeWhile (fun c => c != sep)) := by
  unfold splitChar
  rw [splitCharAux_headD]
  simp

/-- The amended reading of C7: the leading token is the prefix of the
stripped line up to the first SPACE character (not the first whitespace
run), integer-parsed with the literal string kept on failure. -/
def rowCodeSpecSpace (s : String) : RowCode :=
  let tok := String.mk ((pyStripList s.data).takeWhile (fun c => c != ' '))
  match pyInt tok with
  | some i => RowCode.int i
  | none => RowCode.str tok

/-- The claim's literal reading of C7: the leading token is the prefix of
the stripped line up to the first run of WHITESPACE. -/
def rowCodeSpecWhitespace (s : String) : RowCode :=
  let tok := String.mk ((pyStripList s.data).takeWhile (fun c => !isPySpace c))
  match pyInt tok with
  | some i => RowCode.int i
  | none => RowCode.str tok

/-- C7 (amended): the row code is computed by stripping leading/trailing
whitespace, splitting on single SPACE characters (so the leading token is
everything up to the first space, tabs included), attempting an integer
parse of that token, and keeping the literal token string when the parse
fails; extraction itself never fails.  (As literally stated, with the token
ending at the first whitespace run, the claim is false: see the
counterexample with an interior tab.) -/
theorem row_code_space_split (s : String) :
    AptDatLine.row_code (AptDatLine.mk s) = rowCodeSpecSpace s := by
  unfold AptDatLine.row_code rowCodeSpecSpace
  rw [splitChar_headD]
  rfl

/-- C7 counterexample: on the line `"1\t16"` the code keeps the whole
string (the tab is not a split point and makes the integer parse fail),
while the claim's whitespace-run reading would produce the integer 1. -/
theorem row_code_space_split_cex :
    (AptDatLine.mk "1\t16").row_code = RowCode.str "1\t16" ∧
    rowCodeSpecWhitespace "1\t16" = RowCode.int 1 := by
  decide

/-! ## C6: tokens of a line -/

/-- One step of the spec-side space-run collapsing, as a right fold: a
space is dropped when the collapsed remainder already starts with one. -/
def collapseStep (c : Char) (acc : List Char) : List Char :=
  if c = ' ' ∧ acc.head? = some ' ' then acc else c :: acc

/-- The amended reading of C6's normalization: strip, then collapse every
interior run of SPACE characters to a single space (right-fold form). -/
def normalizeSpacesSpec (s : String) : String :=
  String.mk ((pyStripList s.data).foldr collapseStep [])

/-- The amended reading of C6: the normalized form split on single
spaces. -/
def tokensSpecSpaces (s : String) : List String :=
  splitChar ' ' (normalizeSpacesSpec s)

/-- The claim's literal reading of C6's normalization: collapse every
interior run of WHITESPACE to a single space after trimming. -/
def collapseWhitespaceAux : Bool → List Char → List Char
  | _, [] => []
  | lastSp, c :: r =>
      if isPySpace c then
        if lastSp then collapseWhitespaceAux true r
        else ' ' :: collapseWhitespaceAux true r
      else c :: collapseWhitespaceAux false r

/-- The claim's literal reading of C6: whitespace-run-collapsed normalized
form split on single spaces. -/
def tokensSpecWhitespace (s : String) : List String :=
  splitChar ' ' (String.mk (collapseWhitespaceAux false (pyStripList s.data)))

/-- Dropping one leading space, the link between the two collapse flags. -/
def dropOneSpace (cs : List Char) : List Char :=
  if cs.head? = some ' ' then cs.tail else cs

theorem collapse_foldr : ∀ cs : List Char,
    collapseSpacesAux false cs = cs.foldr collapseStep [] ∧
    collapseSpacesAux true cs = dropOneSpace (cs.foldr collapseStep []) := by
  intro cs
  induction cs with
  | nil => exact ⟨rfl, rfl⟩
  | cons c r ih =>
    obtain ⟨ihf, iht⟩ := ih
    by_cases hc : c = ' '
    · subst hc
      by_cases hsp : (r.foldr collapseStep []).head? = some ' '
      · cases hF : r.foldr collapseStep [] with
        | nil => rw [hF] at hsp; simp at hsp
        | cons x t =>
          rw [hF] at hsp
          have hx : x = ' ' := by simpa using hsp
          subst hx
          constructor
          · simp [collapseSpacesAux, iht, hF, dropOneSpace, List.foldr_cons, collapseStep]
          · simp [collapseSpacesAux, iht, hF, dropOneSpace, List.foldr_cons, collapseStep]
      · constructor
        · simp [collapseSpacesAux, iht, dropOneSpace, hsp, List.foldr_cons, collapseStep]
        · simp [collapseSpacesAux, iht, dropOneSpace, hsp, List.foldr_cons, collapseStep]
    · constructor
      · simp [collapseSpacesAux, hc, ihf, List.foldr_cons, collapseStep]
      · simp [collapseSpacesAux, hc, ihf, dropOneSpace, List.foldr_cons, collapseStep]

/-- C6 (amended): the `tokens` accessor returns the normalized form of the
line — leading/trailing whitespace trimmed and every interior run of SPACE
characters collapsed to a single space — split on single spaces.  (As
literally stated, with runs of arbitrary whitespace collapsed, the claim is
false: see the counterexample with an interior tab.) -/
theorem tokens_collapse_spaces (s : String) :
    (AptDatLine.mk s).tokens = tokensSpecSpaces s :=
  congrArg (fun cs => splitChar ' ' (String.mk cs)) (collapse_foldr (pyStripList s.data)).1

/-- C6 counterexample: on the line `"a\tb"` the code keeps the tab inside a
single token, while the claim's whitespace-collapsing reading would turn it
into a space and yield two tokens. -/
theorem tokens_collapse_spaces_cex :
    (AptDatLine.mk "a\tb").tokens = ["a\tb"] ∧
    tokensSpecWhitespace "a\tb" = ["a", "b"] := by
  decide

end XPlaneAirports
